import Mathlib

/-!
Shallow embedding of the CFReT-screen-mAP-analysis repository core:
the barcode loader (src/io_utils.py), the shared-feature finder and the
metadata/feature splitter (utils/data_utils.py and src/data_utils.py), the
annotation and batch-concatenation helpers (src/data_utils.py), the AP/mAP
computation glue (src/analysis_utils.py) and the pairwise pathway
validation step (notebooks/exploratory-analysis/pairwise-analysis).

Tables are modelled as Lean lists; pandas DataFrames appear either as lists
of typed rows (when cell values matter) or as a column-list plus a row
count (when only shape matters).  External statistics libraries (copairs,
pycytominer) are modelled from the contracts the spec states for them, or
abstracted as function parameters; each such definition says so in its doc
comment.  File writes are modelled as a returned list of
path-and-content pairs; Python exceptions are modelled with Except or an
Option error component.
-/

/-- Lexicographic strict order on character lists by code point, modelling
how Python compares strings (and hence how pandas sorts string group
keys). -/
def lexLt : List Char → List Char → Bool
  | [], [] => false
  | [], _ :: _ => true
  | _ :: _, [] => false
  | a :: as, b :: bs => (a < b) || (a == b && lexLt as bs)

/-- Python string strict comparison. -/
def pyStrLt (a b : String) : Bool := lexLt a.data b.data

/-- Python string non-strict comparison. -/
def pyStrLe (a b : String) : Bool := pyStrLt a b || a == b

/-- Worker for firstDedup: drops an element when it was already seen,
mirroring how pandas duplicated() marks every occurrence after the
first. -/
def firstDedupGo (seen : List String) : List String → List String
  | [] => []
  | c :: rest =>
    if c ∈ seen then firstDedupGo seen rest
    else c :: firstDedupGo (c :: seen) rest

/-- Keeps the first occurrence of each value, in order of first appearance:
the effect of selecting the columns where pandas duplicated() is false. -/
def firstDedup (l : List String) : List String := firstDedupGo [] l

/-- Python str.startswith, on the underlying character lists. -/
def strHasPrefix (pre s : String) : Bool := pre.data.isPrefixOf s.data

/-- Decimal digit characters of a natural number, most significant first.
Reference implementation used to reason about Nat.repr. -/
def natChars (n : Nat) : List Char :=
  if h : n < 10 then [Nat.digitChar n]
  else natChars (n / 10) ++ [Nat.digitChar (n % 10)]
termination_by n
decreasing_by
  exact Nat.div_lt_self (by omega) (by norm_num)

/-- Decodes a digit-character list back to the natural number it denotes. -/
def charsVal (l : List Char) : Nat :=
  l.foldl (fun a c => a * 10 + (c.toNat - 48)) 0

/-! ### src/io_utils.py -/

/-- One row of the barcode CSV: columns platemap_file and plate_barcode. -/
structure BarcodeRow where
  platemap_file : String
  plate_barcode : String
deriving DecidableEq

/-- Distinct platemap_file values in ascending order.  Modelled from pandas
DataFrame.groupby semantics: with the default sort=True the group keys are
returned sorted, not in order of first appearance. -/
def groupbyKeys (rows : List BarcodeRow) : List String :=
  List.insertionSort (fun a b => pyStrLe a b = true)
    (firstDedup (rows.map (fun r => r.platemap_file)))

/-- load_barcodes (src/io_utils.py): groups the barcode rows by
platemap_file and assigns batch ids batch_1, batch_2, ... to the groups in
the order pandas groupby yields them; each batch maps the platemap name to
the plate_barcode values of its rows in file order. -/
def load_barcodes (rows : List BarcodeRow) : List (String × (String × List String)) :=
  (groupbyKeys rows).enum.map (fun p =>
    ("batch_" ++ Nat.repr (p.1 + 1),
     (p.2, (rows.filter (fun r => r.platemap_file == p.2)).map
        (fun r => r.plate_barcode))))

/-! ### utils/data_utils.py -/

/-- A Parquet profile file as find_shared_features sees it: its path suffix
and the column names of its schema. -/
structure PqFile where
  suffix : String
  schemaNames : List String
deriving DecidableEq

/-- The suffix test of find_shared_features, transcribed with the Python
operator precedence of the source line:
not path.suffix == ".parquet" or path.suffix == ".pq"
parses as (not (suffix == ".parquet")) or (suffix == ".pq"). -/
def badParquetSuffix (p : PqFile) : Bool :=
  (!(p.suffix == ".parquet")) || (p.suffix == ".pq")

/-- The accumulation loop of find_shared_features: the first file seeds the
shared list, every further file keeps only the names it also has,
preserving the order of the first file. -/
def sharedLoop : Option (List String) → List PqFile → Option (List String)
  | acc, [] => acc
  | none, p :: rest => sharedLoop (some p.schemaNames) rest
  | some shared, p :: rest =>
    sharedLoop (some (shared.filter (fun name => name ∈ p.schemaNames))) rest

/-- find_shared_features (utils/data_utils.py). -/
def find_shared_features (profile_paths : List PqFile) : Except String (List String) :=
  if profile_paths.any badParquetSuffix then
    Except.error "ValueError: All profile paths must point to Parquet files."
  else
    match sharedLoop none profile_paths with
    | none => Except.ok []
    | some shared => Except.ok (if shared.isEmpty then [] else shared)

/-- The default compartments argument of split_meta_and_features. -/
def defaultCompartments : List String := ["Nuclei", "Cells", "Cytoplasm"]

/-- Modelled from the spec: pycytominer infer_cp_features in compartment
mode (the library itself is not part of this repository).  Per the naming
heuristic in the spec, a column is a morphological feature when it starts
with a compartment name followed by an underscore. -/
def infer_cp_features (cols : List String) (compartments : List String) : List String :=
  cols.filter (fun c => compartments.any (fun comp => strHasPrefix (comp ++ "_") c))

/-- Modelled from the spec: pycytominer infer_cp_features in metadata mode,
returning the columns tagged with the Metadata_ name convention. -/
def infer_cp_features_metadata (cols : List String) : List String :=
  cols.filter (fun c => strHasPrefix "Metadata_" c)

/-- split_meta_and_features (utils/data_utils.py and src/data_utils.py,
identical code): features are the inferred compartment columns; metadata is
either every remaining column in table order (metadata_tag false) or the
Metadata_-tagged columns (metadata_tag true). -/
def split_meta_and_features (cols : List String) (compartments : List String)
    (metadata_tag : Bool) : List String × List String :=
  let features_cols := infer_cp_features cols compartments
  let meta_cols :=
    if metadata_tag = false then
      cols.filter (fun c => !(features_cols.contains c))
    else infer_cp_features_metadata cols
  (meta_cols, features_cols)

/-! ### src/data_utils.py : annotate_batch -/

/-- A profile table as annotate_batch needs it: column names and a row
count. -/
structure DFMeta where
  cols : List String
  nrows : Nat
deriving DecidableEq

/-- Removes duplicate column names keeping the first occurrence:
df.loc of the columns where columns.duplicated() is false. -/
def dedupCols (df : DFMeta) : DFMeta :=
  { cols := firstDedup df.cols, nrows := df.nrows }

/-- Sequential monadic map over a list in Except, mirroring a Python loop
whose body may raise: the first raised error aborts the traversal. -/
def mapE {α β : Type} (f : α → Except String β) : List α → Except String (List β)
  | [] => Except.ok []
  | a :: as => do
    let b ← f a
    let bs ← mapE f as
    pure (b :: bs)

/-- The per-profile body of annotate_batch: join the profile with the
platemap (the pycytominer annotate join is abstracted as the function
parameter annotateFn), drop duplicated columns keeping the first
occurrence, and raise ValueError when the row count changed. -/
def annotate_profile (annotateFn : DFMeta → DFMeta → DFMeta)
    (platemap_df profile : DFMeta) : Except String DFMeta :=
  if profile.nrows ≠ (dedupCols (annotateFn profile platemap_df)).nrows then
    Except.error "ValueError: Mismatch detected: The number of rows in the input profile and the annotated profile do not match."
  else Except.ok (dedupCols (annotateFn profile platemap_df))

/-- annotate_batch (src/data_utils.py).  The metadata directory is
modelled as the function platemapOf from platemap name to the loaded
platemap table. -/
def annotate_batch (annotateFn : DFMeta → DFMeta → DFMeta)
    (platemapOf : String → DFMeta)
    (profiles : List (String × List (String × List DFMeta))) :
    Except String (List (String × List (String × List DFMeta))) :=
  mapE (fun bp => do
    let pms ← mapE (fun pmts => do
      let ts ← mapE (annotate_profile annotateFn (platemapOf pmts.1)) pmts.2
      pure (pmts.1, ts)) bp.2
    pure (bp.1, pms)) profiles

/-! ### src/data_utils.py : concat_batch_profiles -/

/-- The synthesized plate identifier of concat_batch_profiles: batch id,
platemap name and the one-based replicate index joined with the literal
rplate separator, exactly as the f-string in the source builds it. -/
def mkPlateId (bid pm : String) (idx : Nat) : String :=
  bid ++ "_" ++ pm ++ "_rplate_" ++ Nat.repr (idx + 1)

/-- concat_batch_profiles (src/data_utils.py).  A profile table is a list
of rows of an arbitrary type; inserting the Metadata_plate_id column as the
leading column turns each row into a pair of the identifier and the row.
A batch with no profile table at all is omitted, mirroring the emptiness
test on updated_profiles; concatenation with ignore_index is list
flattening. -/
def concat_batch_profiles {α : Type} (bp : List (String × List (String × List (List α)))) :
    List (String × List (String × α)) :=
  bp.filterMap (fun b =>
    if (b.2.flatMap (fun pmprofs =>
        pmprofs.2.enum.map (fun ip =>
          ip.2.map (fun r => (mkPlateId b.1 pmprofs.1 ip.1, r))))).isEmpty then none
    else some (b.1, (b.2.flatMap (fun pmprofs =>
        pmprofs.2.enum.map (fun ip =>
          ip.2.map (fun r => (mkPlateId b.1 pmprofs.1 ip.1, r))))).flatten))

/-! ### src/analysis_utils.py : calculate_trt_map_batch_profiles -/

/-- One row of a batch profile table, with the columns the glue reads and
writes: treatment, cell type, the derived reference-index column (absent
before the glue creates it) and the opaque morphological feature payload.
The row position plays the role of the pandas RangeIndex the pipeline
produces (concat_batch_profiles concatenates with ignore_index). -/
structure ProfileRow where
  treatment : String
  cell_type : String
  ref_index : Option Int
  feats : List Int
deriving DecidableEq

/-- The reference-marking step of calculate_trt_map_batch_profiles: the
reference index is initialised from the row index, then reset to the
sentinel -1 on every row whose treatment differs from the control treatment
and whose cell type differs from the control cell state. -/
def markReferences (control_treatment cell_state : String)
    (profile : List ProfileRow) : List ProfileRow :=
  profile.enum.map (fun p =>
    { p.2 with
      ref_index := some
        (if p.2.treatment ≠ control_treatment ∧ p.2.cell_type ≠ cell_state
         then -1 else (p.1 : Int)) })

/-- One row of a copairs average-precision result: the treatment value the
glue filters on, plus the remaining metadata and score columns rendered
opaquely. -/
structure APRow where
  treatment : String
  rest : List String
deriving DecidableEq

/-- One row of a copairs mean-average-precision result. -/
structure MapRow where
  treatment : String
  rest : List String
deriving DecidableEq

/-- The configuration values calculate_trt_map_batch_profiles reads. -/
structure Configs where
  seed : Int
  pos_sameby : List String
  pos_diffby : List String
  neg_diffby : List String
  same_by : List String
  null_size : Nat
  threshold : Rat
deriving DecidableEq

/-- Modelled from the spec: copairs map.mean_average_precision aggregates
the AP rows into one row per treatment (the grouping key, null size,
threshold and seed are externally configured and passed through to the
library). -/
def mean_average_precision (aps : List APRow) (sameby : List String)
    (null_size : Nat) (threshold : Rat) (seed : Int) : List MapRow :=
  ((aps.map (fun r => r.treatment)).dedup).map (fun t => { treatment := t, rest := [] })

/-- Content of one written CSV artifact. -/
inductive FileContent where
  | apCsv (rows : List APRow)
  | mapCsv (rows : List MapRow)
deriving DecidableEq

/-- The outdir_path argument: the signature and the isinstance check both
accept a str or a pathlib.Path. -/
inductive PathLike where
  | str (s : String)
  | path (s : String)
deriving DecidableEq

/-- The Python / operator applied to outdir_path and a file name: defined
for pathlib.Path, a TypeError for str. -/
def joinPath : PathLike → String → Except String String
  | PathLike.str _, _ =>
    Except.error "TypeError: unsupported operand type for /"
  | PathLike.path p, name => Except.ok (p ++ "/" ++ name)

/-- The two control conditions of the analysis: control type, control
treatment and associated cell state. -/
def control_list : List (String × String × String) :=
  [("negative", "DMSO", "failing"), ("positive", "DMSO", "healthy")]

/-- The heap of profile tables: batched_profiles holds references (list
positions) into this store, so that aliasing and in-place mutation can be
tracked. -/
def Store : Type := List (List ProfileRow)

/-- Result of processing one control condition: the store after the copy
and its in-place mutations, the reference the loop variable now holds, the
CSV writes performed, and the raised error if any. -/
structure StepOut where
  store : List (List ProfileRow)
  cur : Nat
  writes : List (String × FileContent)
  err : Option String

/-- The body of the inner loop of calculate_trt_map_batch_profiles for one
control condition: copy the profile the loop variable currently references
(allocating a fresh table), mark references in place on the copy, run the
external average-precision routine (abstracted as apFn), drop the rows
whose treatment equals the control treatment, write the AP CSV, aggregate
with mean_average_precision and write the mAP CSV.  Building an output
path fails with a TypeError when outdir is a str. -/
def runControl (apFn : List ProfileRow → List APRow) (cfg : Configs)
    (outdir : PathLike) (label bid : String)
    (store : List (List ProfileRow)) (cur : Nat)
    (ctl : String × String × String) : StepOut :=
  let profile := store.getD cur []
  let newRef := store.length
  let store1 := store ++ [profile]
  let marked := markReferences ctl.2.1 ctl.2.2 profile
  let store2 := store1.set newRef marked
  let aps := (apFn marked).filter (fun r => !(r.treatment == ctl.2.1))
  let stem := bid ++ "_" ++ label ++ "_" ++ ctl.1 ++ "_control_" ++ ctl.2.2 ++ "_" ++ ctl.2.1
  match joinPath outdir (stem ++ "_AP_scores.csv") with
  | Except.error e => { store := store2, cur := newRef, writes := [], err := some e }
  | Except.ok apPath =>
    let maps := mean_average_precision aps cfg.same_by cfg.null_size cfg.threshold cfg.seed
    match joinPath outdir (stem ++ "_mAP_scores.csv") with
    | Except.error e =>
      { store := store2, cur := newRef,
        writes := [(apPath, FileContent.apCsv aps)], err := some e }
    | Except.ok mapPath =>
      { store := store2, cur := newRef,
        writes := [(apPath, FileContent.apCsv aps), (mapPath, FileContent.mapCsv maps)],
        err := none }

/-- Sequential processing of the control conditions for one batch; an error
aborts the run, keeping the store as mutated so far. -/
def runControls (apFn : List ProfileRow → List APRow) (cfg : Configs)
    (outdir : PathLike) (label bid : String) :
    List (List ProfileRow) → Nat → List (String × String × String) → StepOut
  | store, cur, [] => { store := store, cur := cur, writes := [], err := none }
  | store, cur, c :: rest =>
    let o := runControl apFn cfg outdir label bid store cur c
    match o.err with
    | some e => { store := o.store, cur := o.cur, writes := o.writes, err := some e }
    | none =>
      let o2 := runControls apFn cfg outdir label bid o.store o.cur rest
      { store := o2.store, cur := o2.cur, writes := o.writes ++ o2.writes, err := o2.err }

/-- Sequential processing of the batches. -/
def runBatches (apFn : List ProfileRow → List APRow) (cfg : Configs)
    (outdir : PathLike) (label : String) :
    List (List ProfileRow) → List (String × Nat) → List (List ProfileRow) × List (String × FileContent) × Option String
  | store, [] => (store, [], none)
  | store, b :: rest =>
    let o := runControls apFn cfg outdir label b.1 store b.2 control_list
    match o.err with
    | some e => (o.store, o.writes, some e)
    | none =>
      let r := runBatches apFn cfg outdir label o.store rest
      (r.1, o.writes ++ r.2.1, r.2.2)

/-- calculate_trt_map_batch_profiles (src/analysis_utils.py).
batched_profiles is the dict from batch id to a reference into the store of
profile tables; the external copairs average_precision call (fed the
metadata and feature columns of the marked profile and the configured
same-by and diff-by keys) is abstracted as apFn.  Returns the final store,
the CSV writes in order, and the raised error if any. -/
def calculate_trt_map_batch_profiles (apFn : List ProfileRow → List APRow)
    (store : List (List ProfileRow)) (batched : List (String × Nat))
    (cfg : Configs) (outdir : PathLike) (shuffled : Bool) :
    List (List ProfileRow) × List (String × FileContent) × Option String :=
  let label := if shuffled then "shuffled" else "original"
  runBatches apFn cfg outdir label store batched

/-! ### Pairwise pathway validation (pairwise-compare.py) -/

/-- A pathway cell value: a string label or the float NaN a left merge
introduces for a missing pathway. -/
inductive PwVal where
  | s (v : String)
  | nan
deriving DecidableEq

/-- Python inequality on pathway values: NaN compares unequal to
everything, including NaN itself. -/
def pyNe : PwVal → PwVal → Bool
  | PwVal.s a, PwVal.s b => a != b
  | _, _ => true

/-- pandas isna. -/
def isna : PwVal → Bool
  | PwVal.nan => true
  | _ => false

/-- One row of the concatenated treatment pairwise-score table: the
treatment, its merged pathway value, and the remaining columns
(correlation value, reference label) rendered opaquely. -/
structure PwRow where
  treatment : String
  pathway : PwVal
  rest : List String
deriving DecidableEq

/-- Python dict built by dict(zip(keys, values)) from an association list:
lookup returns the value of the last binding of the key. -/
def dictGet (l : List (String × PwVal)) (k : String) : Option PwVal :=
  (l.reverse.find? (fun p => p.1 == k)).map (fun p => p.2)

/-- Iteration over the items of that dict: keys in first-insertion order,
each with its last bound value. -/
def dictItems (l : List (String × PwVal)) : List (String × PwVal) :=
  (firstDedup (l.map (fun p => p.1))).map (fun k => (k, (dictGet l k).getD PwVal.nan))

/-- The check the validation loop performs on one dict item: KeyError when
the treatment is missing from the independently built pathway dict,
ValueError when the two pathway values differ and are not both NaN. -/
def checkItem (pathway_df : List (String × PwVal)) (it : String × PwVal) : Option String :=
  match dictGet pathway_df it.1 with
  | none => some "KeyError"
  | some orig =>
    if pyNe it.2 orig then
      (if isna it.2 && isna orig then none else some "ValueError")
    else none

/-- Replaces a NaN pathway by the sentinel label, keeping the row. -/
def fillNoPathway (r : PwRow) : PwRow :=
  { r with pathway := if isna r.pathway then PwVal.s "No Pathway" else r.pathway }

/-- The pathway-validation block of pairwise-compare.py: derive the
treatment-to-pathway dict from the merged table, compare every item
against the independently built pathway dict, raise on the first mismatch,
and otherwise fill NaN pathways with the sentinel label. -/
def validate_and_fill (merged : List PwRow) (pathway_df : List (String × PwVal)) :
    Except String (List PwRow) :=
  match (dictItems (merged.map (fun r => (r.treatment, r.pathway)))).findSome?
      (checkItem pathway_df) with
  | some e => Except.error e
  | none => Except.ok (merged.map fillNoPathway)

/-- The validation step together with the CSV write that follows it: on
success the filled table is written to final_trt_pairwise_scores.csv, on a
raise nothing is written. -/
def pairwise_pathway_step (merged : List PwRow) (pathway_df : List (String × PwVal)) :
    List (String × List PwRow) × Option String :=
  match validate_and_fill merged pathway_df with
  | Except.error e => ([], some e)
  | Except.ok t => ([("final_trt_pairwise_scores.csv", t)], none)

/-! ## Claim theorems -/

/-- C1: after the reference-marking step of calculate_trt_map_batch_profiles,
a row's reference index is the sentinel -1 exactly when its treatment
differs from the control treatment and its cell type differs from the
control cell state; a row matching either control key keeps its original
row-index value. -/
theorem markReferences_sentinel_iff (control_treatment cell_state : String)
    (profile : List ProfileRow) (i : Nat)
    (h : i < (markReferences control_treatment cell_state profile).length) :
    (((markReferences control_treatment cell_state profile).get ⟨i, h⟩).ref_index = some (-1) ↔
      (((markReferences control_treatment cell_state profile).get ⟨i, h⟩).treatment ≠ control_treatment ∧
       ((markReferences control_treatment cell_state profile).get ⟨i, h⟩).cell_type ≠ cell_state)) ∧
    ((((markReferences control_treatment cell_state profile).get ⟨i, h⟩).treatment = control_treatment ∨
      ((markReferences control_treatment cell_state profile).get ⟨i, h⟩).cell_type = cell_state) →
      ((markReferences control_treatment cell_state profile).get ⟨i, h⟩).ref_index = some (i : Int)) := by
  have hi : i < profile.length := by
    simpa [markReferences] using h
  have hrow : (markReferences control_treatment cell_state profile).get ⟨i, h⟩ =
      { profile.get ⟨i, hi⟩ with
        ref_index := some
          (if (profile.get ⟨i, hi⟩).treatment ≠ control_treatment ∧
              (profile.get ⟨i, hi⟩).cell_type ≠ cell_state
           then -1 else (i : Int)) } := by
    simp [markReferences, List.get_eq_getElem]
  rw [hrow]
  by_cases hc : (profile.get ⟨i, hi⟩).treatment ≠ control_treatment ∧
      (profile.get ⟨i, hi⟩).cell_type ≠ cell_state
  · rw [if_pos hc]
    refine ⟨iff_of_true rfl hc, ?_⟩
    intro hd
    rcases hd with hd | hd
    · exact absurd hd hc.1
    · exact absurd hd hc.2
  · rw [if_neg hc]
    refine ⟨?_, fun _ => rfl⟩
    constructor
    · intro heq
      have hne : (i : Int) = -1 := Option.some.inj heq
      omega
    · intro hcc
      exact absurd hcc hc

/-- Witness for C1 at a concrete one-row profile whose cell type matches the
control cell state. -/
theorem markReferences_sentinel_iff_witness :
    (((markReferences "DMSO" "failing" [⟨"trtA", "failing", none, []⟩]).get
        ⟨0, by decide⟩).ref_index = some (-1) ↔
      (((markReferences "DMSO" "failing" [⟨"trtA", "failing", none, []⟩]).get
        ⟨0, by decide⟩).treatment ≠ "DMSO" ∧
       ((markReferences "DMSO" "failing" [⟨"trtA", "failing", none, []⟩]).get
        ⟨0, by decide⟩).cell_type ≠ "failing")) ∧
    ((((markReferences "DMSO" "failing" [⟨"trtA", "failing", none, []⟩]).get
        ⟨0, by decide⟩).treatment = "DMSO" ∨
      ((markReferences "DMSO" "failing" [⟨"trtA", "failing", none, []⟩]).get
        ⟨0, by decide⟩).cell_type = "failing") →
      ((markReferences "DMSO" "failing" [⟨"trtA", "failing", none, []⟩]).get
        ⟨0, by decide⟩).ref_index = some ((0 : Nat) : Int)) :=
  markReferences_sentinel_iff "DMSO" "failing" [⟨"trtA", "failing", none, []⟩] 0 (by decide)

/-- C3: the precedence slip in the suffix check makes find_shared_features
raise ValueError on a path with the Parquet suffix .pq that the claim, the
docstring and the dead second disjunct of the source condition all accept. -/
theorem find_shared_features_pq_raises :
    find_shared_features [⟨".pq", ["colA", "colB"]⟩] =
      Except.error "ValueError: All profile paths must point to Parquet files." := by
  rfl

/-- C4: for every batch and control condition, the AP table written to the
AP-scores CSV contains no row whose treatment equals the control treatment,
and the mAP table written to the mAP-scores CSV has exactly one row per
distinct treatment value present in that filtered AP table. -/
theorem runControl_written_tables (apFn : List ProfileRow → List APRow)
    (cfg : Configs) (outdir : PathLike) (label bid : String)
    (store : List (List ProfileRow)) (cur : Nat) (ct trt cs : String) :
    (∀ p t, (p, FileContent.apCsv t) ∈
        (runControl apFn cfg outdir label bid store cur (ct, trt, cs)).writes →
      ∀ r ∈ t, r.treatment ≠ trt) ∧
    (∀ p m, (p, FileContent.mapCsv m) ∈
        (runControl apFn cfg outdir label bid store cur (ct, trt, cs)).writes →
      (m.map MapRow.treatment).Nodup ∧
      ∀ q u, (q, FileContent.apCsv u) ∈
          (runControl apFn cfg outdir label bid store cur (ct, trt, cs)).writes →
        ∀ s, s ∈ m.map MapRow.treatment ↔ s ∈ u.map APRow.treatment) := by
  have hfilter : ∀ t, t = (apFn (markReferences trt cs (store[cur]?.getD []))).filter
      (fun r => !(r.treatment == trt)) → ∀ r ∈ t, r.treatment ≠ trt := by
    intro t ht r hr
    rw [ht] at hr
    have := List.of_mem_filter hr
    simpa using this
  have hmap : ∀ (aps : List APRow),
      ((mean_average_precision aps cfg.same_by cfg.null_size cfg.threshold cfg.seed).map
        MapRow.treatment).Nodup ∧
      ∀ s, s ∈ (mean_average_precision aps cfg.same_by cfg.null_size cfg.threshold
          cfg.seed).map MapRow.treatment ↔ s ∈ aps.map APRow.treatment := by
    intro aps
    constructor
    · simp only [mean_average_precision, List.map_map]
      have : (MapRow.treatment ∘ fun t => { treatment := t, rest := [] : MapRow }) = id := by
        funext t
        rfl
      rw [this, List.map_id]
      exact List.nodup_dedup _
    · intro s
      simp only [mean_average_precision, List.map_map]
      have : (MapRow.treatment ∘ fun t => { treatment := t, rest := [] : MapRow }) = id := by
        funext t
        rfl
      rw [this, List.map_id]
      exact List.mem_dedup
  unfold runControl
  cases hj1 : joinPath outdir (bid ++ "_" ++ label ++ "_" ++ ct ++ "_control_" ++ cs ++
      "_" ++ trt ++ "_AP_scores.csv") with
  | error e =>
    simp only [hj1]
    exact ⟨fun p t ht => absurd ht (by simp), fun p m hm => absurd hm (by simp)⟩
  | ok apPath =>
    cases hj2 : joinPath outdir (bid ++ "_" ++ label ++ "_" ++ ct ++ "_control_" ++ cs ++
        "_" ++ trt ++ "_mAP_scores.csv") with
    | error e =>
      simp only [hj1, hj2]
      constructor
      · intro p t ht
        simp at ht
        exact hfilter t ht.2
      · intro p m hm
        exact absurd hm (by simp)
    | ok mapPath =>
      simp only [hj1, hj2]
      constructor
      · intro p t ht
        simp at ht
        exact hfilter t ht.2
      · intro p m hm
        simp at hm
        refine ⟨by rw [hm.2]; exact (hmap _).1, ?_⟩
        intro q u hu
        simp at hu
        intro s
        rw [hm.2, hu.2]
        exact (hmap _).2 s

/-- Witness for C4 at a concrete batch with one control row and one treated
row, with the external average-precision routine instantiated concretely. -/
theorem runControl_written_tables_witness :
    (APRow.mk "trtA" []).treatment ≠ "DMSO" ∧
    ([MapRow.mk "trtA" []].map MapRow.treatment).Nodup ∧
    ("trtA" ∈ [MapRow.mk "trtA" []].map MapRow.treatment ↔
      "trtA" ∈ [APRow.mk "trtA" []].map APRow.treatment) :=
  ⟨(runControl_written_tables (fun rows => rows.map (fun r => APRow.mk r.treatment []))
      ⟨0, [], [], [], ["Metadata_treatment"], 1000, 0⟩ (PathLike.path "results")
      "original" "batch_1" [[⟨"DMSO", "failing", none, []⟩, ⟨"trtA", "failing", none, []⟩]]
      0 "negative" "DMSO" "failing").1
      "results/batch_1_original_negative_control_failing_DMSO_AP_scores.csv"
      [APRow.mk "trtA" []] (by decide) (APRow.mk "trtA" []) (by decide),
   ((runControl_written_tables (fun rows => rows.map (fun r => APRow.mk r.treatment []))
      ⟨0, [], [], [], ["Metadata_treatment"], 1000, 0⟩ (PathLike.path "results")
      "original" "batch_1" [[⟨"DMSO", "failing", none, []⟩, ⟨"trtA", "failing", none, []⟩]]
      0 "negative" "DMSO" "failing").2
      "results/batch_1_original_negative_control_failing_DMSO_mAP_scores.csv"
      [MapRow.mk "trtA" []] (by decide)).1,
   ((runControl_written_tables (fun rows => rows.map (fun r => APRow.mk r.treatment []))
      ⟨0, [], [], [], ["Metadata_treatment"], 1000, 0⟩ (PathLike.path "results")
      "original" "batch_1" [[⟨"DMSO", "failing", none, []⟩, ⟨"trtA", "failing", none, []⟩]]
      0 "negative" "DMSO" "failing").2
      "results/batch_1_original_negative_control_failing_DMSO_mAP_scores.csv"
      [MapRow.mk "trtA" []] (by decide)).2
      "results/batch_1_original_negative_control_failing_DMSO_AP_scores.csv"
      [APRow.mk "trtA" []] (by decide) "trtA"⟩

/-- C10: when outdir_path is a str (which the isinstance check accepts) and
at least one batch is present, the call fails with a TypeError while
constructing the first output file path, before any file is written; output
files are only ever produced for a pathlib.Path outdir. -/
theorem calculate_str_outdir_type_error (apFn : List ProfileRow → List APRow)
    (store : List (List ProfileRow)) (batched : List (String × Nat))
    (cfg : Configs) (s : String) (shuffled : Bool) (h : batched ≠ []) :
    (calculate_trt_map_batch_profiles apFn store batched cfg (PathLike.str s) shuffled).2.2 =
      some "TypeError: unsupported operand type for /" ∧
    (calculate_trt_map_batch_profiles apFn store batched cfg (PathLike.str s) shuffled).2.1 = [] := by
  match batched, h with
  | b :: rest, _ => exact ⟨rfl, rfl⟩

/-- Witness for C10 at a concrete non-empty batch dict. -/
theorem calculate_str_outdir_type_error_witness :
    (calculate_trt_map_batch_profiles (fun _ => []) [[]] [("batch_1", 0)]
      ⟨0, [], [], [], [], 0, 0⟩ (PathLike.str "results") false).2.2 =
      some "TypeError: unsupported operand type for /" ∧
    (calculate_trt_map_batch_profiles (fun _ => []) [[]] [("batch_1", 0)]
      ⟨0, [], [], [], [], 0, 0⟩ (PathLike.str "results") false).2.1 = [] :=
  calculate_str_outdir_type_error (fun _ => []) [[]] [("batch_1", 0)]
    ⟨0, [], [], [], [], 0, 0⟩ "results" false (by decide)


/-- Allocating a copy at the end of the store and mutating only the copy
leaves every previously existing table unchanged. -/
theorem copy_mutate_preserves (store : List (List ProfileRow))
    (v w : List ProfileRow) (i : Nat) (h : i < store.length) :
    ((store ++ [v]).set store.length w)[i]? = store[i]? := by
  rw [List.getElem?_set_ne (by omega)]
  exact List.getElem?_append_left h

/-- One control-condition step never shrinks the store and never touches a
previously existing table. -/
theorem runControl_store_preserved (apFn : List ProfileRow → List APRow)
    (cfg : Configs) (outdir : PathLike) (label bid : String)
    (store : List (List ProfileRow)) (cur : Nat) (ctl : String × String × String) :
    store.length ≤ (runControl apFn cfg outdir label bid store cur ctl).store.length ∧
    ∀ i, i < store.length →
      (runControl apFn cfg outdir label bid store cur ctl).store[i]? = store[i]? := by
  unfold runControl
  cases h1 : joinPath outdir (bid ++ "_" ++ label ++ "_" ++ ctl.1 ++ "_control_" ++ ctl.2.2 ++
      "_" ++ ctl.2.1 ++ "_AP_scores.csv") with
  | error e =>
    simp only [h1]
    refine ⟨by simp, fun i hi => copy_mutate_preserves store _ _ i hi⟩
  | ok apPath =>
    cases h2 : joinPath outdir (bid ++ "_" ++ label ++ "_" ++ ctl.1 ++ "_control_" ++ ctl.2.2 ++
        "_" ++ ctl.2.1 ++ "_mAP_scores.csv") with
    | error e =>
      simp only [h1, h2]
      refine ⟨by simp, fun i hi => copy_mutate_preserves store _ _ i hi⟩
    | ok mapPath =>
      simp only [h1, h2]
      refine ⟨by simp, fun i hi => copy_mutate_preserves store _ _ i hi⟩

/-- The control loop of one batch preserves every previously existing
table, whether it completes or aborts on an error. -/
theorem runControls_store_preserved (apFn : List ProfileRow → List APRow)
    (cfg : Configs) (outdir : PathLike) (label bid : String) :
    ∀ (ctls : List (String × String × String)) (store : List (List ProfileRow)) (cur : Nat),
    store.length ≤ (runControls apFn cfg outdir label bid store cur ctls).store.length ∧
    ∀ i, i < store.length →
      (runControls apFn cfg outdir label bid store cur ctls).store[i]? = store[i]? := by
  intro ctls
  induction ctls with
  | nil => exact fun store cur => ⟨Nat.le_refl _, fun i _ => rfl⟩
  | cons c rest ih =>
    intro store cur
    have h1 := runControl_store_preserved apFn cfg outdir label bid store cur c
    cases he : (runControl apFn cfg outdir label bid store cur c).err with
    | some e =>
      simp only [runControls, he]
      exact h1
    | none =>
      simp only [runControls, he]
      have h2 := ih (runControl apFn cfg outdir label bid store cur c).store
        (runControl apFn cfg outdir label bid store cur c).cur
      refine ⟨Nat.le_trans h1.1 h2.1, fun i hi => ?_⟩
      rw [h2.2 i (Nat.lt_of_lt_of_le hi h1.1)]
      exact h1.2 i hi

/-- The batch loop preserves every previously existing table. -/
theorem runBatches_store_preserved (apFn : List ProfileRow → List APRow)
    (cfg : Configs) (outdir : PathLike) (label : String) :
    ∀ (batched : List (String × Nat)) (store : List (List ProfileRow)),
    store.length ≤ (runBatches apFn cfg outdir label store batched).1.length ∧
    ∀ i, i < store.length →
      (runBatches apFn cfg outdir label store batched).1[i]? = store[i]? := by
  intro batched
  induction batched with
  | nil => exact fun store => ⟨Nat.le_refl _, fun i _ => rfl⟩
  | cons b rest ih =>
    intro store
    have h1 := runControls_store_preserved apFn cfg outdir label b.1 control_list store b.2
    cases he : (runControls apFn cfg outdir label b.1 store b.2 control_list).err with
    | some e =>
      simp only [runBatches, he]
      exact h1
    | none =>
      simp only [runBatches, he]
      have h2 := ih (runControls apFn cfg outdir label b.1 store b.2 control_list).store
      refine ⟨Nat.le_trans h1.1 h2.1, fun i hi => ?_⟩
      rw [h2.2 i (Nat.lt_of_lt_of_le hi h1.1)]
      exact h1.2 i hi

/-- C8: calculate_trt_map_batch_profiles never mutates the tables the
caller passed in: every profile table that existed in the store before the
call is unchanged (same rows, same values) after the call, whether it
returns or raises, because every batch and control condition works on a
freshly allocated copy. -/
theorem calculate_never_mutates_caller (apFn : List ProfileRow → List APRow)
    (store : List (List ProfileRow)) (batched : List (String × Nat))
    (cfg : Configs) (outdir : PathLike) (shuffled : Bool) (i : Nat)
    (h : i < store.length) :
    (calculate_trt_map_batch_profiles apFn store batched cfg outdir shuffled).1[i]? =
      store[i]? := by
  unfold calculate_trt_map_batch_profiles
  exact (runBatches_store_preserved apFn cfg outdir
    (if shuffled then "shuffled" else "original") batched store).2 i h

/-- Witness for C8 at a concrete store of one profile table. -/
theorem calculate_never_mutates_caller_witness :
    (calculate_trt_map_batch_profiles (fun rows => rows.map (fun r => APRow.mk r.treatment []))
      [[⟨"trtA", "failing", none, []⟩]] [("batch_1", 0)]
      ⟨0, [], [], [], ["Metadata_treatment"], 1000, 0⟩ (PathLike.path "results") false).1[0]? =
      [[⟨"trtA", "failing", none, []⟩]][0]? :=
  calculate_never_mutates_caller (fun rows => rows.map (fun r => APRow.mk r.treatment []))
    [[⟨"trtA", "failing", none, []⟩]] [("batch_1", 0)]
    ⟨0, [], [], [], ["Metadata_treatment"], 1000, 0⟩ (PathLike.path "results") false 0 (by decide)

/-- A findSome? over a list succeeds as soon as any element yields a
result. -/
theorem findSome_isSome_of_mem {α β : Type} (f : α → Option β) :
    ∀ (l : List α) (a : α), a ∈ l → (f a).isSome = true →
      (l.findSome? f).isSome = true := by
  intro l
  induction l with
  | nil => intro a ha; exact absurd ha (List.not_mem_nil a)
  | cons b rest ih =>
    intro a ha hf
    rw [List.findSome?_cons]
    cases hb : f b with
    | some x => rfl
    | none =>
      rcases List.mem_cons.mp ha with rfl | ha2
      · rw [hb] at hf; exact absurd hf (by simp)
      · exact ih a ha2 hf

/-- C9: if the treatment-to-pathway dict derived from the merged result
disagrees with the independently built pathway lookup for some treatment
and the two values are not both NaN, the step raises before the
treatment-pairwise-scores CSV is written; when validation passes, the
written table keeps every row, replacing only NaN pathway entries by the
sentinel label. -/
theorem pairwise_pathway_validation (merged : List PwRow)
    (pathway_df : List (String × PwVal)) :
    (∀ t v orig,
        (t, v) ∈ dictItems (merged.map (fun r => (r.treatment, r.pathway))) →
        dictGet pathway_df t = some orig →
        pyNe v orig = true →
        ¬(isna v = true ∧ isna orig = true) →
        (pairwise_pathway_step merged pathway_df).1 = [] ∧
        (pairwise_pathway_step merged pathway_df).2.isSome = true) ∧
    (∀ out, validate_and_fill merged pathway_df = Except.ok out →
        (pairwise_pathway_step merged pathway_df).1 =
          [("final_trt_pairwise_scores.csv", out)] ∧
        out.length = merged.length ∧
        ∀ i (hi : i < merged.length) (hi' : i < out.length),
          (isna (merged.get ⟨i, hi⟩).pathway = true →
            (out.get ⟨i, hi'⟩).pathway = PwVal.s "No Pathway") ∧
          (isna (merged.get ⟨i, hi⟩).pathway = false →
            (out.get ⟨i, hi'⟩).pathway = (merged.get ⟨i, hi⟩).pathway) ∧
          (out.get ⟨i, hi'⟩).treatment = (merged.get ⟨i, hi⟩).treatment ∧
          (out.get ⟨i, hi'⟩).rest = (merged.get ⟨i, hi⟩).rest) := by
  constructor
  · intro t v orig hmem hget hne hnan
    have hcheck : (checkItem pathway_df (t, v)).isSome = true := by
      unfold checkItem
      simp only [hget]
      rw [if_pos hne]
      have : (isna v && isna orig) = false := by
        cases hv : isna v
        · simp
        · cases ho : isna orig
          · simp
          · exact absurd ⟨hv, ho⟩ hnan
      rw [this]
      rfl
    have hfind : ((dictItems (merged.map (fun r => (r.treatment, r.pathway)))).findSome?
        (checkItem pathway_df)).isSome = true :=
      findSome_isSome_of_mem (checkItem pathway_df) _ (t, v) hmem hcheck
    rcases Option.isSome_iff_exists.mp hfind with ⟨e, he⟩
    unfold pairwise_pathway_step validate_and_fill
    simp only [he]
    exact ⟨trivial, rfl⟩
  · intro out hok
    have hout : out = merged.map fillNoPathway ∧
        ((dictItems (merged.map (fun r => (r.treatment, r.pathway)))).findSome?
          (checkItem pathway_df)) = none := by
      unfold validate_and_fill at hok
      cases hf : ((dictItems (merged.map (fun r => (r.treatment, r.pathway)))).findSome?
          (checkItem pathway_df)) with
      | some e => rw [hf] at hok; exact absurd hok (by simp)
      | none =>
        rw [hf] at hok
        exact ⟨(Except.ok.inj hok).symm, rfl⟩
    refine ⟨?_, ?_, ?_⟩
    · unfold pairwise_pathway_step validate_and_fill
      simp only [hout.2]
      rw [hout.1]
    · rw [hout.1]; exact List.length_map _ _
    · intro i hi hi'
      have hget : out.get ⟨i, hi'⟩ = fillNoPathway (merged.get ⟨i, hi⟩) := by
        have := hout.1
        subst this
        simp [List.get_eq_getElem]
      rw [hget]
      unfold fillNoPathway
      refine ⟨?_, ?_, rfl, rfl⟩
      · intro hna
        simp only [hna]
        rfl
      · intro hna
        simp only [hna]
        rfl

/-- Witness for C9 at a concrete one-row merged table whose pathway
disagrees with the lookup table. -/
theorem pairwise_pathway_validation_witness :
    (pairwise_pathway_step [⟨"t1", PwVal.s "P1", []⟩] [("t1", PwVal.s "P2")]).1 = [] ∧
    (pairwise_pathway_step [⟨"t1", PwVal.s "P1", []⟩] [("t1", PwVal.s "P2")]).2.isSome = true :=
  (pairwise_pathway_validation [⟨"t1", PwVal.s "P1", []⟩] [("t1", PwVal.s "P2")]).1
    "t1" (PwVal.s "P1") (PwVal.s "P2") (by decide) (by decide) (by decide) (by decide)

/-- A sequential Except-map that succeeds maps each element exactly as the
pointwise characterisation says. -/
theorem mapE_ok_map_form {α β : Type} (f : α → Except String β) (g : α → β)
    (hpt : ∀ a b, f a = Except.ok b → b = g a) :
    ∀ (l : List α) (l' : List β), mapE f l = Except.ok l' → l' = l.map g := by
  intro l
  induction l with
  | nil =>
    intro l' h
    simp only [mapE] at h
    rw [← Except.ok.inj h]
    rfl
  | cons a as ih =>
    intro l' h
    cases hfa : f a with
    | error e => rw [mapE, hfa] at h; exact Except.noConfusion h
    | ok b =>
      cases hmas : mapE f as with
      | error e =>
        rw [mapE, hfa, hmas] at h
        exact Except.noConfusion h
      | ok bs =>
        rw [mapE, hfa, hmas] at h
        have hl : b :: bs = l' := Except.ok.inj h
        rw [← hl, List.map_cons, hpt a b hfa, ih bs hmas]

/-- A sequential Except-map that succeeds succeeded on every element. -/
theorem mapE_ok_forall_mem {α β : Type} (f : α → Except String β) :
    ∀ (l : List α) (l' : List β), mapE f l = Except.ok l' →
      ∀ a ∈ l, ∃ b, f a = Except.ok b := by
  intro l
  induction l with
  | nil => intro l' _ a ha; exact absurd ha (List.not_mem_nil a)
  | cons a as ih =>
    intro l' h x hx
    cases hfa : f a with
    | error e => rw [mapE, hfa] at h; exact Except.noConfusion h
    | ok b =>
      cases hmas : mapE f as with
      | error e =>
        rw [mapE, hfa, hmas] at h
        exact Except.noConfusion h
      | ok bs =>
        rcases List.mem_cons.mp hx with rfl | hx2
        · exact ⟨b, hfa⟩
        · exact ih bs hmas x hx2

/-- A successful annotate_profile returns the column-deduplicated join with
the row count of the input profile. -/
theorem annotate_profile_ok (fn : DFMeta → DFMeta → DFMeta) (pmdf t t' : DFMeta)
    (h : annotate_profile fn pmdf t = Except.ok t') :
    t' = dedupCols (fn t pmdf) ∧ t'.nrows = t.nrows := by
  unfold annotate_profile at h
  split at h
  · exact absurd h (by simp)
  · rename_i hcond
    have ht : dedupCols (fn t pmdf) = t' := Except.ok.inj h
    refine ⟨ht.symm, ?_⟩
    rw [← ht]
    omega

/-- annotate_profile raises when the join changed the row count. -/
theorem annotate_profile_mismatch (fn : DFMeta → DFMeta → DFMeta) (pmdf t : DFMeta)
    (h : (dedupCols (fn t pmdf)).nrows ≠ t.nrows) :
    ∀ t', annotate_profile fn pmdf t ≠ Except.ok t' := by
  intro t' hok
  unfold annotate_profile at hok
  rw [if_pos (by omega)] at hok
  exact absurd hok (by simp)

/-- Membership in the seen-accumulator dedup worker. -/
theorem firstDedupGo_mem : ∀ (l seen : List String) (x : String),
    x ∈ firstDedupGo seen l ↔ x ∈ l ∧ x ∉ seen := by
  intro l
  induction l with
  | nil => intro seen x; simp [firstDedupGo]
  | cons c rest ih =>
    intro seen x
    by_cases hc : c ∈ seen
    · rw [firstDedupGo, if_pos hc, ih]
      constructor
      · exact fun h => ⟨List.mem_cons_of_mem c h.1, h.2⟩
      · intro h
        rcases List.mem_cons.mp h.1 with rfl | hx
        · exact absurd hc h.2
        · exact ⟨hx, h.2⟩
    · rw [firstDedupGo, if_neg hc]
      constructor
      · intro h
        rcases List.mem_cons.mp h with rfl | hx
        · exact ⟨List.mem_cons_self _ _, hc⟩
        · have := (ih (c :: seen) x).mp hx
          exact ⟨List.mem_cons_of_mem c this.1,
            fun hs => this.2 (List.mem_cons_of_mem c hs)⟩
      · intro h
        by_cases hxc : x = c
        · exact hxc ▸ List.mem_cons_self _ _
        · rcases List.mem_cons.mp h.1 with rfl | hx
          · exact absurd rfl hxc
          · exact List.mem_cons_of_mem c ((ih (c :: seen) x).mpr
              ⟨hx, fun hs => (List.mem_cons.mp hs).elim (fun he => hxc he) h.2⟩)

/-- The dedup worker returns a duplicate-free list. -/
theorem firstDedupGo_nodup : ∀ (l seen : List String), (firstDedupGo seen l).Nodup := by
  intro l
  induction l with
  | nil => intro seen; simp [firstDedupGo]
  | cons c rest ih =>
    intro seen
    by_cases hc : c ∈ seen
    · rw [firstDedupGo, if_pos hc]; exact ih seen
    · rw [firstDedupGo, if_neg hc]
      refine List.Nodup.cons ?_ (ih (c :: seen))
      intro hmem
      exact ((firstDedupGo_mem rest (c :: seen) c).mp hmem).2 (List.mem_cons_self _ _)

/-- The dedup worker returns a sublist of its input. -/
theorem firstDedupGo_sublist : ∀ (l seen : List String),
    (firstDedupGo seen l).Sublist l := by
  intro l
  induction l with
  | nil => intro seen; simp [firstDedupGo]
  | cons c rest ih =>
    intro seen
    by_cases hc : c ∈ seen
    · rw [firstDedupGo, if_pos hc]
      exact List.Sublist.cons c (ih seen)
    · rw [firstDedupGo, if_neg hc]
      exact List.Sublist.cons₂ c (ih (c :: seen))

/-- A successful platemap-level step of annotate_batch returns its platemap
name with the deduplicated annotated tables. -/
theorem annotate_mid_ok (fn : DFMeta → DFMeta → DFMeta) (platemapOf : String → DFMeta)
    (pmts b : String × List DFMeta)
    (h : (do
        let ts ← mapE (annotate_profile fn (platemapOf pmts.1)) pmts.2
        pure (pmts.1, ts) : Except String (String × List DFMeta)) = Except.ok b) :
    b = (pmts.1, pmts.2.map (fun t => dedupCols (fn t (platemapOf pmts.1)))) := by
  cases hm : mapE (annotate_profile fn (platemapOf pmts.1)) pmts.2 with
  | error e => rw [hm] at h; exact Except.noConfusion h
  | ok ts =>
    rw [hm] at h
    have hb : (pmts.1, ts) = b := Except.ok.inj h
    rw [← hb,
      mapE_ok_map_form (annotate_profile fn (platemapOf pmts.1))
        (fun t => dedupCols (fn t (platemapOf pmts.1)))
        (fun t t' ht => (annotate_profile_ok fn (platemapOf pmts.1) t t' ht).1)
        pmts.2 ts hm]

/-- A successful batch-level step of annotate_batch returns its batch id
with every platemap processed as annotate_mid_ok says. -/
theorem annotate_outer_ok (fn : DFMeta → DFMeta → DFMeta) (platemapOf : String → DFMeta)
    (bp b : String × List (String × List DFMeta))
    (h : (do
        let pms ← mapE (fun pmts => do
          let ts ← mapE (annotate_profile fn (platemapOf pmts.1)) pmts.2
          pure (pmts.1, ts)) bp.2
        pure (bp.1, pms) : Except String (String × List (String × List DFMeta))) =
        Except.ok b) :
    b = (bp.1, bp.2.map (fun pmts => (pmts.1,
      pmts.2.map (fun t => dedupCols (fn t (platemapOf pmts.1)))))) := by
  cases hm : mapE (fun pmts => do
      let ts ← mapE (annotate_profile fn (platemapOf pmts.1)) pmts.2
      pure (pmts.1, ts) : (String × List DFMeta) → Except String (String × List DFMeta)) bp.2 with
  | error e => rw [hm] at h; exact Except.noConfusion h
  | ok pms =>
    rw [hm] at h
    have hb : (bp.1, pms) = b := Except.ok.inj h
    rw [← hb,
      mapE_ok_map_form _
        (fun pmts => (pmts.1, pmts.2.map (fun t => dedupCols (fn t (platemapOf pmts.1)))))
        (fun pmts pmb hpmb => annotate_mid_ok fn platemapOf pmts pmb hpmb)
        bp.2 pms hm]

/-- From a successful annotate_batch run, the per-table annotate_profile
call for any member table succeeded. -/
theorem annotate_batch_pointwise (fn : DFMeta → DFMeta → DFMeta)
    (platemapOf : String → DFMeta)
    (profiles out : List (String × List (String × List DFMeta)))
    (hok : annotate_batch fn platemapOf profiles = Except.ok out) :
    ∀ bp ∈ profiles, ∀ pmts ∈ bp.2, ∀ t ∈ pmts.2,
      ∃ t', annotate_profile fn (platemapOf pmts.1) t = Except.ok t' := by
  intro bp hbp pmts hpmts t ht
  unfold annotate_batch at hok
  obtain ⟨b, hb⟩ := mapE_ok_forall_mem _ profiles out hok bp hbp
  cases hm : mapE (fun pmts => do
      let ts ← mapE (annotate_profile fn (platemapOf pmts.1)) pmts.2
      pure (pmts.1, ts) : (String × List DFMeta) → Except String (String × List DFMeta)) bp.2 with
  | error e => rw [hm] at hb; exact Except.noConfusion hb
  | ok pms =>
    obtain ⟨pmb, hpmb⟩ := mapE_ok_forall_mem _ bp.2 pms hm pmts hpmts
    cases hts : mapE (annotate_profile fn (platemapOf pmts.1)) pmts.2 with
    | error e => rw [hts] at hpmb; exact Except.noConfusion hpmb
    | ok ts => exact mapE_ok_forall_mem _ pmts.2 ts hts t ht

/-- C5: for every profile table, the annotated output of annotate_batch has
exactly the row count of the input profile; a row-count change anywhere
makes the call raise instead of returning; and duplicate column names from
the join are removed keeping the first occurrence of each name. -/
theorem annotate_batch_row_invariance (fn : DFMeta → DFMeta → DFMeta)
    (platemapOf : String → DFMeta)
    (profiles : List (String × List (String × List DFMeta))) :
    (∀ out, annotate_batch fn platemapOf profiles = Except.ok out →
      out = profiles.map (fun bp => (bp.1, bp.2.map (fun pmts => (pmts.1,
        pmts.2.map (fun t => dedupCols (fn t (platemapOf pmts.1))))))) ∧
      ∀ bp ∈ profiles, ∀ pmts ∈ bp.2, ∀ t ∈ pmts.2,
        (dedupCols (fn t (platemapOf pmts.1))).nrows = t.nrows) ∧
    (∀ bp ∈ profiles, ∀ pmts ∈ bp.2, ∀ t ∈ pmts.2,
      (dedupCols (fn t (platemapOf pmts.1))).nrows ≠ t.nrows →
      ∃ e, annotate_batch fn platemapOf profiles = Except.error e) ∧
    (∀ df : DFMeta, (dedupCols df).nrows = df.nrows ∧ (dedupCols df).cols.Nodup ∧
      (dedupCols df).cols.Sublist df.cols ∧
      ∀ n, n ∈ (dedupCols df).cols ↔ n ∈ df.cols) := by
  refine ⟨?_, ?_, ?_⟩
  · intro out hok
    constructor
    · have hform := hok
      unfold annotate_batch at hform
      exact mapE_ok_map_form _
        (fun bp => (bp.1, bp.2.map (fun pmts => (pmts.1,
          pmts.2.map (fun t => dedupCols (fn t (platemapOf pmts.1)))))))
        (fun bp b hb => annotate_outer_ok fn platemapOf bp b hb)
        profiles out hform
    · intro bp hbp pmts hpmts t ht
      obtain ⟨t', ht'⟩ := annotate_batch_pointwise fn platemapOf profiles out hok
        bp hbp pmts hpmts t ht
      have := annotate_profile_ok fn (platemapOf pmts.1) t t' ht'
      rw [← this.1]
      exact this.2
  · intro bp hbp pmts hpmts t ht hmis
    cases hres : annotate_batch fn platemapOf profiles with
    | error e => exact ⟨e, rfl⟩
    | ok out =>
      exfalso
      obtain ⟨t', ht'⟩ := annotate_batch_pointwise fn platemapOf profiles out hres
        bp hbp pmts hpmts t ht
      exact annotate_profile_mismatch fn (platemapOf pmts.1) t hmis t' ht'
  · intro df
    refine ⟨rfl, firstDedupGo_nodup df.cols [], firstDedupGo_sublist df.cols [], ?_⟩
    intro n
    rw [show (dedupCols df).cols = firstDedupGo [] df.cols from rfl, firstDedupGo_mem]
    simp

/-- Witness for C5: a join that keeps the row count yields the deduplicated
annotated table with the input row count; a join that changes the row count
makes annotate_batch raise; the dedup keeps one occurrence per name. -/
theorem annotate_batch_row_invariance_witness :
    (dedupCols (DFMeta.mk
        (["Metadata_WellPosition", "f1"] ++ ["Metadata_WellPosition", "Metadata_treatment"]) 5)).nrows = 5 ∧
    (∃ e, annotate_batch (fun profile pm => DFMeta.mk (profile.cols ++ pm.cols) (profile.nrows + 1))
        (fun _ => DFMeta.mk ["Metadata_WellPosition", "Metadata_treatment"] 3)
        [("batch_1", [("pm1", [DFMeta.mk ["Metadata_WellPosition", "f1"] 5])])] =
        Except.error e) ∧
    (dedupCols (DFMeta.mk ["a", "b", "a"] 7)).cols.Nodup ∧
    (dedupCols (DFMeta.mk ["a", "b", "a"] 7)).cols.Sublist ["a", "b", "a"] :=
  ⟨((annotate_batch_row_invariance
      (fun profile pm => DFMeta.mk (profile.cols ++ pm.cols) profile.nrows)
      (fun _ => DFMeta.mk ["Metadata_WellPosition", "Metadata_treatment"] 3)
      [("batch_1", [("pm1", [DFMeta.mk ["Metadata_WellPosition", "f1"] 5])])]).1
      [("batch_1", [("pm1", [DFMeta.mk
        ["Metadata_WellPosition", "f1", "Metadata_treatment"] 5])])] rfl).2
      ("batch_1", [("pm1", [DFMeta.mk ["Metadata_WellPosition", "f1"] 5])]) (by decide)
      ("pm1", [DFMeta.mk ["Metadata_WellPosition", "f1"] 5]) (by decide)
      (DFMeta.mk ["Metadata_WellPosition", "f1"] 5) (by decide),
   (annotate_batch_row_invariance
      (fun profile pm => DFMeta.mk (profile.cols ++ pm.cols) (profile.nrows + 1))
      (fun _ => DFMeta.mk ["Metadata_WellPosition", "Metadata_treatment"] 3)
      [("batch_1", [("pm1", [DFMeta.mk ["Metadata_WellPosition", "f1"] 5])])]).2.1
      ("batch_1", [("pm1", [DFMeta.mk ["Metadata_WellPosition", "f1"] 5])]) (by decide)
      ("pm1", [DFMeta.mk ["Metadata_WellPosition", "f1"] 5]) (by decide)
      (DFMeta.mk ["Metadata_WellPosition", "f1"] 5) (by decide) (by decide),
   (((annotate_batch_row_invariance (fun profile _ => profile)
      (fun _ => DFMeta.mk [] 0) []).2.2 (DFMeta.mk ["a", "b", "a"] 7)).2).1,
   ((((annotate_batch_row_invariance (fun profile _ => profile)
      (fun _ => DFMeta.mk [] 0) []).2.2 (DFMeta.mk ["a", "b", "a"] 7)).2).2).1⟩

/-- Transitivity of the Python lexicographic order on character lists. -/
theorem lexLt_trans : ∀ a b c : List Char,
    lexLt a b = true → lexLt b c = true → lexLt a c = true := by
  intro a
  induction a with
  | nil =>
    intro b c hab hbc
    cases b with
    | nil => exact absurd hab (by simp [lexLt])
    | cons bh bt =>
      cases c with
      | nil => exact absurd hbc (by simp [lexLt])
      | cons ch ct => simp [lexLt]
  | cons ah as ih =>
    intro b c hab hbc
    cases b with
    | nil => exact absurd hab (by simp [lexLt])
    | cons bh bt =>
      cases c with
      | nil => exact absurd hbc (by simp [lexLt])
      | cons ch ct =>
        simp only [lexLt, Bool.or_eq_true, Bool.and_eq_true, beq_iff_eq,
          decide_eq_true_eq] at hab hbc ⊢
        rcases hab with h1 | ⟨h1, h1t⟩
        · rcases hbc with h2 | ⟨h2, h2t⟩
          · exact Or.inl (lt_trans h1 h2)
          · exact Or.inl (by rw [← h2]; exact h1)
        · rcases hbc with h2 | ⟨h2, h2t⟩
          · exact Or.inl (by rw [h1]; exact h2)
          · exact Or.inr ⟨h1.trans h2, ih bt ct h1t h2t⟩

/-- Trichotomy of the Python lexicographic order on character lists. -/
theorem lexLt_trichotomy : ∀ a b : List Char,
    lexLt a b = true ∨ lexLt b a = true ∨ a = b := by
  intro a
  induction a with
  | nil =>
    intro b
    cases b with
    | nil => exact Or.inr (Or.inr rfl)
    | cons bh bt => exact Or.inl (by simp [lexLt])
  | cons ah as ih =>
    intro b
    cases b with
    | nil => exact Or.inr (Or.inl (by simp [lexLt]))
    | cons bh bt =>
      rcases lt_trichotomy ah bh with h | h | h
      · exact Or.inl (by simp [lexLt, h])
      · subst h
        rcases ih bt with h2 | h2 | h2
        · exact Or.inl (by simp [lexLt, h2])
        · exact Or.inr (Or.inl (by simp [lexLt, h2]))
        · exact Or.inr (Or.inr (by rw [h2]))
      · exact Or.inr (Or.inl (by simp [lexLt, h]))

instance : IsTrans String (fun a b => pyStrLe a b = true) := by
  constructor
  intro a b c hab hbc
  simp only [pyStrLe, pyStrLt, Bool.or_eq_true, beq_iff_eq] at hab hbc ⊢
  rcases hab with h1 | h1
  · rcases hbc with h2 | h2
    · exact Or.inl (lexLt_trans _ _ _ h1 h2)
    · subst h2
      exact Or.inl h1
  · subst h1
    exact hbc

instance : IsTotal String (fun a b => pyStrLe a b = true) := by
  constructor
  intro a b
  simp only [pyStrLe, pyStrLt, Bool.or_eq_true, beq_iff_eq]
  rcases lexLt_trichotomy a.data b.data with h | h | h
  · exact Or.inl (Or.inl h)
  · exact Or.inr (Or.inl h)
  · exact Or.inl (Or.inr (String.ext h))

/-- C2 (amended): load_barcodes assigns the synthesized batch ids to the
platemap groups in ascending lexicographic order of the platemap name (the
pandas groupby default), not in order of first appearance; the keys are
exactly the distinct platemap values, each batch maps its platemap name to
that group's plate_barcode values in file order, and the batch ids are
batch_1, batch_2, ... in sequence. -/
theorem load_barcodes_sorted_batches (rows : List BarcodeRow) :
    List.Sorted (fun a b => pyStrLe a b = true)
      ((load_barcodes rows).map (fun p => p.2.1)) ∧
    ((load_barcodes rows).map (fun p => p.2.1)).Nodup ∧
    (∀ k, k ∈ (load_barcodes rows).map (fun p => p.2.1) ↔
      k ∈ rows.map (fun r => r.platemap_file)) ∧
    (∀ e ∈ load_barcodes rows,
      e.2.2 = (rows.filter (fun r => r.platemap_file == e.2.1)).map
        (fun r => r.plate_barcode)) ∧
    (load_barcodes rows).map (fun p => p.1) =
      (List.range (load_barcodes rows).length).map
        (fun i => "batch_" ++ Nat.repr (i + 1)) := by
  have hkeys : (load_barcodes rows).map (fun p => p.2.1) = groupbyKeys rows := by
    unfold load_barcodes
    rw [List.map_map]
    have hc : ((fun p => p.2.1) ∘ (fun p : Nat × String =>
        ("batch_" ++ Nat.repr (p.1 + 1),
         (p.2, (rows.filter (fun r => r.platemap_file == p.2)).map
            (fun r => r.plate_barcode))))) = Prod.snd := by
      funext q
      rfl
    rw [hc]
    exact List.enum_map_snd _
  have hperm := List.perm_insertionSort (fun a b => pyStrLe a b = true)
    (firstDedup (rows.map (fun r => r.platemap_file)))
  refine ⟨?_, ?_, ?_, ?_, ?_⟩
  · rw [hkeys]
    exact List.sorted_insertionSort _ _
  · rw [hkeys]
    exact hperm.nodup_iff.mpr (firstDedupGo_nodup _ [])
  · intro k
    rw [hkeys]
    unfold groupbyKeys
    rw [hperm.mem_iff]
    unfold firstDedup
    rw [firstDedupGo_mem]
    simp
  · intro e he
    unfold load_barcodes at he
    rcases List.mem_map.mp he with ⟨q, _, hq⟩
    rw [← hq]
  · unfold load_barcodes
    rw [List.map_map]
    have hc : ((fun p => p.1) ∘ (fun p : Nat × String =>
        ("batch_" ++ Nat.repr (p.1 + 1),
         (p.2, (rows.filter (fun r => r.platemap_file == p.2)).map
            (fun r => r.plate_barcode))))) =
        ((fun i => "batch_" ++ Nat.repr (i + 1)) ∘ Prod.fst) := by
      funext q
      rfl
    rw [hc, ← List.map_map, List.enum_map_fst]
    simp [List.length_map, List.enum_length]

/-- C2 counterexample: with the platemap that appears first in the file
being lexicographically larger, batch_1 is the sorted-first group, not the
first-appearing group, refuting the group-of-appearance ordering. -/
theorem load_barcodes_appearance_order_counterexample :
    (load_barcodes [⟨"pmB", "P1"⟩, ⟨"pmA", "P2"⟩]).map (fun p => p.2.1) ≠
      firstDedup (([⟨"pmB", "P1"⟩, ⟨"pmA", "P2"⟩] : List BarcodeRow).map
        (fun r => r.platemap_file)) ∧
    load_barcodes [⟨"pmB", "P1"⟩, ⟨"pmA", "P2"⟩] =
      [("batch_1", ("pmA", ["P2"])), ("batch_2", ("pmB", ["P1"]))] := by
  decide

/-- Witness for C2 at the same concrete barcode file. -/
theorem load_barcodes_sorted_batches_witness :
    ("batch_2", ("pmB", ["P1"])).2.2 =
      (([⟨"pmB", "P1"⟩, ⟨"pmA", "P2"⟩] : List BarcodeRow).filter
        (fun r => r.platemap_file == ("batch_2", ("pmB", ["P1"])).2.1)).map
        (fun r => r.plate_barcode) ∧
    ("pmA" ∈ (load_barcodes [⟨"pmB", "P1"⟩, ⟨"pmA", "P2"⟩]).map (fun p => p.2.1) ↔
      "pmA" ∈ ([⟨"pmB", "P1"⟩, ⟨"pmA", "P2"⟩] : List BarcodeRow).map
        (fun r => r.platemap_file)) :=
  ⟨(load_barcodes_sorted_batches [⟨"pmB", "P1"⟩, ⟨"pmA", "P2"⟩]).2.2.2.1
      ("batch_2", ("pmB", ["P1"])) (by decide),
   (load_barcodes_sorted_batches [⟨"pmB", "P1"⟩, ⟨"pmA", "P2"⟩]).2.2.1 "pmA"⟩

/-- A nonempty prefix pins down the head of the longer list. -/
theorem head_of_isPrefixOf (a : Char) (p s : List Char)
    (h : (a :: p).isPrefixOf s = true) : ∃ t, s = a :: t ∧ p.isPrefixOf t = true := by
  cases s with
  | nil => exact absurd h (by simp [List.isPrefixOf])
  | cons b t =>
    simp only [List.isPrefixOf, Bool.and_eq_true, beq_iff_eq] at h
    exact ⟨t, by rw [h.1], h.2⟩

/-- C7 (amended): with metadata_tag false the two lists of
split_meta_and_features partition the column set (union equals the full
column set, intersection empty); with metadata_tag true the two lists are
still disjoint and drawn from the column set, but a column carrying neither
a compartment prefix nor the Metadata_ tag belongs to neither list, so the
union can be a strict subset. -/
theorem split_meta_and_features_partition (cols : List String) :
    ((∀ c, c ∈ cols ↔
        (c ∈ (split_meta_and_features cols defaultCompartments false).1 ∨
         c ∈ (split_meta_and_features cols defaultCompartments false).2)) ∧
     (∀ c, c ∈ (split_meta_and_features cols defaultCompartments false).1 →
        c ∉ (split_meta_and_features cols defaultCompartments false).2)) ∧
    ((∀ c, c ∈ (split_meta_and_features cols defaultCompartments true).1 →
        c ∉ (split_meta_and_features cols defaultCompartments true).2) ∧
     (∀ c, c ∈ (split_meta_and_features cols defaultCompartments true).1 ∨
        c ∈ (split_meta_and_features cols defaultCompartments true).2 → c ∈ cols)) := by
  constructor
  · constructor
    · intro c
      constructor
      · intro hc
        by_cases hf : c ∈ infer_cp_features cols defaultCompartments
        · exact Or.inr hf
        · refine Or.inl (List.mem_filter.mpr ⟨hc, ?_⟩)
          simp only [Bool.not_eq_true']
          rw [← Bool.not_eq_true]
          intro hcontra
          exact hf (List.elem_iff.mp hcontra)
      · intro hc
        rcases hc with hc | hc
        · exact (List.mem_filter.mp hc).1
        · exact (List.mem_filter.mp hc).1
    · intro c hc
      have h2 := (List.mem_filter.mp hc).2
      intro hf
      rw [Bool.not_eq_true'] at h2
      have hf2 : c ∈ infer_cp_features cols defaultCompartments := hf
      have h3 : (infer_cp_features cols defaultCompartments).contains c = true :=
        List.elem_iff.mpr hf2
      rw [h3] at h2
      exact Bool.noConfusion h2
  · constructor
    · intro c hc hf
      have hmeta := (List.mem_filter.mp hc).2
      have hfeat := (List.mem_filter.mp hf).2
      simp only [List.any_eq_true] at hfeat
      rcases hfeat with ⟨comp, hcomp, hpre⟩
      have hM : ∃ t, c.data = 'M' :: t := by
        unfold strHasPrefix at hmeta
        have : "Metadata_".data = 'M' :: "etadata_".data := rfl
        rw [this] at hmeta
        rcases head_of_isPrefixOf _ _ _ hmeta with ⟨t, ht, _⟩
        exact ⟨t, ht⟩
      rcases hM with ⟨t, ht⟩
      simp only [defaultCompartments, List.mem_cons, List.not_mem_nil, or_false] at hcomp
      rcases hcomp with rfl | rfl | rfl
      · unfold strHasPrefix at hpre
        have he : ("Nuclei" ++ "_").data = 'N' :: "uclei_".data := rfl
        rw [he] at hpre
        rcases head_of_isPrefixOf _ _ _ hpre with ⟨t2, ht2, _⟩
        rw [ht] at ht2
        exact absurd (List.cons.inj ht2).1 (by decide)
      · unfold strHasPrefix at hpre
        have he : ("Cells" ++ "_").data = 'C' :: "ells_".data := rfl
        rw [he] at hpre
        rcases head_of_isPrefixOf _ _ _ hpre with ⟨t2, ht2, _⟩
        rw [ht] at ht2
        exact absurd (List.cons.inj ht2).1 (by decide)
      · unfold strHasPrefix at hpre
        have he : ("Cytoplasm" ++ "_").data = 'C' :: "ytoplasm_".data := rfl
        rw [he] at hpre
        rcases head_of_isPrefixOf _ _ _ hpre with ⟨t2, ht2, _⟩
        rw [ht] at ht2
        exact absurd (List.cons.inj ht2).1 (by decide)
    · intro c hc
      rcases hc with hc | hc
      · exact (List.mem_filter.mp hc).1
      · exact (List.mem_filter.mp hc).1

/-- C7 counterexample: with metadata_tag true, a column that carries
neither a compartment prefix nor the Metadata_ tag is in neither returned
list, so the union of the two lists misses it and is not the full column
set. -/
theorem split_meta_and_features_union_counterexample :
    "weird" ∈ ["Metadata_Well", "Nuclei_A", "weird"] ∧
    "weird" ∉ (split_meta_and_features ["Metadata_Well", "Nuclei_A", "weird"]
      defaultCompartments true).1 ∧
    "weird" ∉ (split_meta_and_features ["Metadata_Well", "Nuclei_A", "weird"]
      defaultCompartments true).2 := by
  decide

/-- Witness for C7 at a concrete column set. -/
theorem split_meta_and_features_partition_witness :
    ("f2" ∈ ["Nuclei_A", "f2"] ↔
      ("f2" ∈ (split_meta_and_features ["Nuclei_A", "f2"] defaultCompartments false).1 ∨
       "f2" ∈ (split_meta_and_features ["Nuclei_A", "f2"] defaultCompartments false).2)) ∧
    ("Metadata_Well" ∉ (split_meta_and_features ["Metadata_Well", "Nuclei_A"]
      defaultCompartments true).2) ∧
    ("Nuclei_A" ∈ ["Metadata_Well", "Nuclei_A"]) :=
  ⟨(split_meta_and_features_partition ["Nuclei_A", "f2"]).1.1 "f2",
   (split_meta_and_features_partition ["Metadata_Well", "Nuclei_A"]).2.1
     "Metadata_Well" (by decide),
   (split_meta_and_features_partition ["Metadata_Well", "Nuclei_A"]).2.2
     "Nuclei_A" (Or.inr (by decide))⟩

/-- Unfolding natChars below the base. -/
theorem natChars_lt (n : Nat) (h : n < 10) : natChars n = [Nat.digitChar n] := by
  unfold natChars
  rw [dif_pos h]

/-- Unfolding natChars at or above the base. -/
theorem natChars_ge (n : Nat) (h : ¬n < 10) :
    natChars n = natChars (n / 10) ++ [Nat.digitChar (n % 10)] := by
  conv_lhs => unfold natChars
  rw [dif_neg h]

/-- The fuel-based digit loop of Nat.repr computes natChars, given enough
fuel. -/
theorem toDigitsCore_eq_natChars : ∀ (fuel n : Nat) (acc : List Char), n < fuel →
    Nat.toDigitsCore 10 fuel n acc = natChars n ++ acc := by
  intro fuel
  induction fuel with
  | zero => intro n acc h; exact absurd h (Nat.not_lt_zero n)
  | succ f ih =>
    intro n acc h
    have heq : Nat.toDigitsCore 10 (f + 1) n acc =
        if n / 10 = 0 then Nat.digitChar (n % 10) :: acc
        else Nat.toDigitsCore 10 f (n / 10) (Nat.digitChar (n % 10) :: acc) := rfl
    rw [heq]
    by_cases h10 : n / 10 = 0
    · rw [if_pos h10]
      have hn : n < 10 := (Nat.div_eq_zero_iff (by norm_num)).mp h10
      rw [Nat.mod_eq_of_lt hn, natChars_lt n hn]
      rfl
    · rw [if_neg h10]
      have hdiv : n / 10 < n := Nat.div_lt_self (by omega) (by norm_num)
      have hlt : n / 10 < f := by omega
      rw [ih (n / 10) (Nat.digitChar (n % 10) :: acc) hlt]
      have hge : ¬n < 10 := fun hc => h10 (Nat.div_eq_of_lt hc)
      rw [natChars_ge n hge, List.append_assoc]
      rfl

/-- The decimal rendering of Nat.repr is exactly natChars. -/
theorem repr_data (n : Nat) : (Nat.repr n).data = natChars n := by
  show ((Nat.toDigits 10 n).asString).data = natChars n
  rw [Nat.toDigits, toDigitsCore_eq_natChars (n + 1) n [] (Nat.lt_succ_self n),
    List.append_nil]
  rfl

/-- Every character of a decimal rendering is a digit. -/
theorem digitChar_isDigit : ∀ m, m < 10 → (Nat.digitChar m).isDigit = true := by
  decide

/-- Decoding a decimal digit character. -/
theorem digitChar_val : ∀ m, m < 10 → (Nat.digitChar m).toNat - 48 = m := by
  decide

/-- natChars renders only digit characters. -/
theorem natChars_digits : ∀ (n : Nat), ∀ c ∈ natChars n, c.isDigit = true := by
  intro n
  induction n using Nat.strong_induction_on with
  | _ n ih =>
    by_cases h : n < 10
    · rw [natChars_lt n h]
      intro c hc
      rw [List.mem_singleton] at hc
      rw [hc]
      exact digitChar_isDigit n h
    · rw [natChars_ge n h]
      intro c hc
      rcases List.mem_append.mp hc with hc2 | hc2
      · exact ih (n / 10) (Nat.div_lt_self (by omega) (by norm_num)) c hc2
      · rw [List.mem_singleton] at hc2
        rw [hc2]
        exact digitChar_isDigit _ (Nat.mod_lt n (by norm_num))

/-- Folding the decimal decoder over natChars recovers the number. -/
theorem natChars_foldl : ∀ (n a : Nat),
    (natChars n).foldl (fun acc c => acc * 10 + (c.toNat - 48)) a =
      a * 10 ^ (natChars n).length + n := by
  intro n
  induction n using Nat.strong_induction_on with
  | _ n ih =>
    intro a
    by_cases h : n < 10
    · rw [natChars_lt n h]
      show a * 10 + ((Nat.digitChar n).toNat - 48) = a * 10 ^ [Nat.digitChar n].length + n
      rw [digitChar_val n h, List.length_singleton, pow_one]
    · rw [natChars_ge n h, List.foldl_append,
        ih (n / 10) (Nat.div_lt_self (by omega) (by norm_num)) a]
      show (a * 10 ^ (natChars (n / 10)).length + n / 10) * 10 +
          ((Nat.digitChar (n % 10)).toNat - 48) =
        a * 10 ^ (natChars (n / 10) ++ [Nat.digitChar (n % 10)]).length + n
      rw [digitChar_val _ (Nat.mod_lt n (by norm_num)), List.length_append,
        List.length_singleton]
      calc (a * 10 ^ (natChars (n / 10)).length + n / 10) * 10 + n % 10
          = a * (10 ^ (natChars (n / 10)).length * 10) + (10 * (n / 10) + n % 10) := by
            ring
        _ = a * 10 ^ ((natChars (n / 10)).length + 1) + n := by
            rw [Nat.div_add_mod, pow_succ]

/-- charsVal decodes natChars. -/
theorem charsVal_natChars (n : Nat) : charsVal (natChars n) = n := by
  unfold charsVal
  rw [natChars_foldl n 0]
  simp

/-- The decimal rendering of natural numbers is injective. -/
theorem natRepr_inj (m n : Nat) (h : Nat.repr m = Nat.repr n) : m = n := by
  have hd : natChars m = natChars n := by
    have h1 : (Nat.repr m).data = (Nat.repr n).data := by rw [h]
    rw [repr_data, repr_data] at h1
    exact h1
  rw [← charsVal_natChars m, ← charsVal_natChars n, hd]

/-- Splitting a concatenation at the first non-digit character is
unambiguous: if both decompositions put all-digit characters before a
non-digit head, the two parts coincide. -/
theorem digit_prefix_eq : ∀ (d1 d2 t1 t2 : List Char),
    (∀ c ∈ d1, c.isDigit = true) → (∀ c ∈ d2, c.isDigit = true) →
    (∀ c, t1.head? = some c → c.isDigit = false) →
    (∀ c, t2.head? = some c → c.isDigit = false) →
    d1 ++ t1 = d2 ++ t2 → d1 = d2 ∧ t1 = t2 := by
  intro d1
  induction d1 with
  | nil =>
    intro d2 t1 t2 _ hd2 ht1 _ heq
    cases d2 with
    | nil => exact ⟨rfl, heq⟩
    | cons b bs =>
      exfalso
      rw [List.nil_append] at heq
      have hb : t1.head? = some b := by rw [heq]; rfl
      have h1 := ht1 b hb
      have h2 := hd2 b (List.mem_cons_self _ _)
      rw [h1] at h2
      exact Bool.noConfusion h2
  | cons a as ih =>
    intro d2 t1 t2 hd1 hd2 ht1 ht2 heq
    cases d2 with
    | nil =>
      exfalso
      rw [List.nil_append] at heq
      have hb : t2.head? = some a := by rw [← heq]; rfl
      have h1 := ht2 a hb
      have h2 := hd1 a (List.mem_cons_self _ _)
      rw [h1] at h2
      exact Bool.noConfusion h2
    | cons b bs =>
      rw [List.cons_append, List.cons_append] at heq
      have hab := (List.cons.inj heq).1
      have htail := (List.cons.inj heq).2
      have hrec := ih bs t1 t2 (fun c hc => hd1 c (List.mem_cons_of_mem a hc))
        (fun c hc => hd2 c (List.mem_cons_of_mem b hc)) ht1 ht2 htail
      exact ⟨by rw [hab, hrec.1], hrec.2⟩

/-- The synthesized plate identifier determines the platemap name and the
replicate index: within one batch, distinct source tables get distinct
identifiers. -/
theorem mkPlateId_inj (bid pm1 pm2 : String) (i1 i2 : Nat)
    (h : mkPlateId bid pm1 i1 = mkPlateId bid pm2 i2) : pm1 = pm2 ∧ i1 = i2 := by
  have h0 : (mkPlateId bid pm1 i1).data = (mkPlateId bid pm2 i2).data := by rw [h]
  unfold mkPlateId at h0
  simp only [String.data_append, List.append_assoc] at h0
  have h1 := List.append_cancel_left h0
  have h2 := List.append_cancel_left h1
  have h3 := congrArg List.reverse h2
  simp only [List.reverse_append, List.append_assoc] at h3
  have hd1 : ∀ c ∈ (Nat.repr (i1 + 1)).data.reverse, c.isDigit = true := by
    intro c hc
    rw [List.mem_reverse, repr_data] at hc
    exact natChars_digits _ c hc
  have hd2 : ∀ c ∈ (Nat.repr (i2 + 1)).data.reverse, c.isDigit = true := by
    intro c hc
    rw [List.mem_reverse, repr_data] at hc
    exact natChars_digits _ c hc
  have hh1 : ∀ c, ("_rplate_".data.reverse ++ pm1.data.reverse).head? = some c →
      c.isDigit = false := by
    intro c hc
    have hu : ("_rplate_".data.reverse ++ pm1.data.reverse).head? = some '_' := rfl
    rw [hu] at hc
    rw [← Option.some.inj hc]
    decide
  have hh2 : ∀ c, ("_rplate_".data.reverse ++ pm2.data.reverse).head? = some c →
      c.isDigit = false := by
    intro c hc
    have hu : ("_rplate_".data.reverse ++ pm2.data.reverse).head? = some '_' := rfl
    rw [hu] at hc
    rw [← Option.some.inj hc]
    decide
  obtain ⟨hr, hrest⟩ := digit_prefix_eq _ _ _ _ hd1 hd2 hh1 hh2 h3
  have hreq : (Nat.repr (i1 + 1)).data = (Nat.repr (i2 + 1)).data := by
    rw [← List.reverse_reverse (Nat.repr (i1 + 1)).data, hr, List.reverse_reverse]
  have hi : i1 = i2 := by
    have := natRepr_inj (i1 + 1) (i2 + 1) (String.ext hreq)
    omega
  have hpmrev : pm1.data.reverse = pm2.data.reverse := List.append_cancel_left hrest
  have hpm : pm1.data = pm2.data := by
    rw [← List.reverse_reverse pm1.data, hpmrev, List.reverse_reverse]
  exact ⟨String.ext hpm, hi⟩

/-- C6: every output row of concat_batch_profiles carries a synthesized
plate identifier built from its source batch, platemap and one-based
replicate index, inserted as the leading column; the identifier determines
the (platemap, index) source within a batch, so identifiers of distinct
source tables are distinct; and the concatenated table of a batch has as
many rows as all that batch's input tables together. -/
theorem concat_batch_profiles_props {α : Type}
    (bp : List (String × List (String × List (List α)))) :
    (∀ q ∈ concat_batch_profiles bp,
      (∃ pms, (q.1, pms) ∈ bp ∧
        q.2.length = (pms.map (fun e => (e.2.map List.length).sum)).sum) ∧
      (∀ row ∈ q.2, ∃ pm profs idx pms2,
        (q.1, pms2) ∈ bp ∧ (pm, profs) ∈ pms2 ∧ idx < profs.length ∧
        row.1 = mkPlateId q.1 pm idx)) ∧
    (∀ bid pm1 pm2 i1 i2, mkPlateId bid pm1 i1 = mkPlateId bid pm2 i2 →
      pm1 = pm2 ∧ i1 = i2) := by
  constructor
  · intro q hq
    unfold concat_batch_profiles at hq
    rcases List.mem_filterMap.mp hq with ⟨b, hb, hfb⟩
    by_cases hemp : (b.2.flatMap (fun pmprofs =>
        pmprofs.2.enum.map (fun ip =>
          ip.2.map (fun r => (mkPlateId b.1 pmprofs.1 ip.1, r))))).isEmpty
    · rw [if_pos hemp] at hfb
      exact absurd hfb (by simp)
    · rw [if_neg hemp] at hfb
      have hq2 := Option.some.inj hfb
      subst hq2
      constructor
      · refine ⟨b.2, by simpa using hb, ?_⟩
        show ((b.2.flatMap (fun pmprofs =>
            pmprofs.2.enum.map (fun ip =>
              ip.2.map (fun r => (mkPlateId b.1 pmprofs.1 ip.1, r))))).flatten).length =
          (b.2.map (fun e => (e.2.map List.length).sum)).sum
        rw [List.length_flatten, List.map_flatMap, List.flatMap_def,
          List.sum_flatten, List.map_map]
        have hmapeq : (List.sum ∘ fun e : String × List (List α) =>
            (e.2.enum.map (fun ip =>
              ip.2.map (fun r => (mkPlateId b.1 e.1 ip.1, r)))).map List.length) =
            (fun e : String × List (List α) => (e.2.map List.length).sum) := by
          funext e
          show ((e.2.enum.map (fun ip =>
              ip.2.map (fun r => (mkPlateId b.1 e.1 ip.1, r)))).map List.length).sum =
            (e.2.map List.length).sum
          rw [List.map_map]
          have hfun : (List.length ∘ fun ip : Nat × List α =>
              ip.2.map (fun r => (mkPlateId b.1 e.1 ip.1, r))) =
              (List.length ∘ Prod.snd) := by
            funext ip
            simp [List.length_map]
          rw [hfun, ← List.map_map, List.enum_map_snd]
        rw [hmapeq]
      · intro row hrow
        have hrow2 : row ∈ (b.2.flatMap (fun pmprofs =>
            pmprofs.2.enum.map (fun ip =>
              ip.2.map (fun r => (mkPlateId b.1 pmprofs.1 ip.1, r))))).flatten := hrow
        rcases List.mem_flatten.mp hrow2 with ⟨tbl, htbl, hrowtbl⟩
        rcases List.mem_flatMap.mp htbl with ⟨pmprofs, hpm, htbl2⟩
        rcases List.mem_map.mp htbl2 with ⟨ip, hip, htbleq⟩
        rw [← htbleq] at hrowtbl
        rcases List.mem_map.mp hrowtbl with ⟨r, _, hroweq⟩
        have hidx : ip.1 < pmprofs.2.length :=
          (List.getElem?_eq_some.mp (List.mem_enum_iff_getElem?.mp hip)).1
        refine ⟨pmprofs.1, pmprofs.2, ip.1, b.2, by simpa using hb,
          by simpa using hpm, hidx, ?_⟩
        rw [← hroweq]
  · intro bid pm1 pm2 i1 i2 h
    exact mkPlateId_inj bid pm1 pm2 i1 i2 h

/-- Witness for C6 at a concrete batch of one platemap with two replicate
tables. -/
theorem concat_batch_profiles_props_witness :
    (∃ pms, (("b" : String), pms) ∈
        ([("b", [("p", [[0], [1, 2]])])] : List (String × List (String × List (List Nat)))) ∧
      ([("b_p_rplate_1", (0 : Nat)), ("b_p_rplate_2", 1), ("b_p_rplate_2", 2)] :
        List (String × Nat)).length =
        (pms.map (fun e => (e.2.map List.length).sum)).sum) ∧
    (∃ pm profs idx pms2,
      (("b" : String), pms2) ∈
        ([("b", [("p", [[0], [1, 2]])])] : List (String × List (String × List (List Nat)))) ∧
      (pm, profs) ∈ pms2 ∧ idx < profs.length ∧
      (("b_p_rplate_2", (2 : Nat)) : String × Nat).1 = mkPlateId "b" pm idx) ∧
    (("p" : String) = "p" ∧ (0 : Nat) = 0) :=
  ⟨((concat_batch_profiles_props
      ([("b", [("p", [[0], [1, 2]])])] : List (String × List (String × List (List Nat))))).1
      ("b", [("b_p_rplate_1", 0), ("b_p_rplate_2", 1), ("b_p_rplate_2", 2)])
      (by decide)).1,
   ((concat_batch_profiles_props
      ([("b", [("p", [[0], [1, 2]])])] : List (String × List (String × List (List Nat))))).1
      ("b", [("b_p_rplate_1", 0), ("b_p_rplate_2", 1), ("b_p_rplate_2", 2)])
      (by decide)).2 ("b_p_rplate_2", 2) (by decide),
   (concat_batch_profiles_props
      ([("b", [("p", [[0], [1, 2]])])] : List (String × List (String × List (List Nat))))).2
      "b" "p" "p" 0 0 rfl⟩
